import Mathlib

/-!
Verification of the weblate social-authentication pipeline steps
(src/weblate/accounts/pipeline.py) against its specification.

Strings are modelled as lists of characters (Unicode code points).
The Python standard library pieces the code calls are embedded as follows:
  - unicodedata.normalize('NFKD', -) is an external Unicode table; it is
    taken as a function parameter.  The only fact used about it is the
    Unicode guarantee that ASCII characters are NFKD-normal fixpoints,
    stated as a hypothesis where needed.
  - str.encode('ascii', 'ignore').decode('ascii') keeps exactly the code
    points below 128 (asciiIgnore).
  - the regular expressions of the module are compiled to character-class
    predicates and structural recursions; the input of every regex call in
    slugify_username is pure ASCII (it runs after asciiIgnore), so the
    ASCII restriction of the Python character classes is what matters.
-/

namespace Weblate

/-- Python 3 whitespace code points: the characters matched by the regex
class backslash-s on str patterns and stripped by str.strip (ASCII part plus
the Unicode whitespace code points). -/
def pySpaceCodes : List Nat :=
  [9, 10, 11, 12, 13, 28, 29, 30, 31, 32, 133, 160, 5760,
   8192, 8193, 8194, 8195, 8196, 8197, 8198, 8199, 8200, 8201, 8202,
   8232, 8233, 8239, 8287, 12288]

/-- Whitespace predicate used by str.strip and the regex whitespace class. -/
def isPySpace (c : Char) : Bool := pySpaceCodes.contains c.toNat

/-- ASCII word character: the regex word class restricted to ASCII input
(letters, digits, underscore). -/
def isWordAscii (c : Char) : Bool :=
  (48 ≤ c.toNat && c.toNat ≤ 57) ||
  (65 ≤ c.toNat && c.toNat ≤ 90) ||
  (97 ≤ c.toNat && c.toNat ≤ 122) ||
  c.toNat = 95

/-- Characters of the allowed-username class of USERNAME_RE
(word characters plus dot, at-sign, plus, hyphen). -/
def isUserChar (c : Char) : Bool :=
  isWordAscii c || c = '.' || c = '@' || c = '+' || c = '-'

/-- A character REMOVED by STRIP_MATCHER (the complemented class of word,
whitespace, dot, at-sign, plus, hyphen). -/
def isStripTarget (c : Char) : Bool :=
  !(isWordAscii c || isPySpace c || c = '.' || c = '@' || c = '+' || c = '-')

/-- A character of the CLEANUP_MATCHER class: hyphen or whitespace. -/
def isDashSpace (c : Char) : Bool := c = '-' || isPySpace c

/-- str.encode('ascii', 'ignore').decode('ascii'): keep code points < 128. -/
def asciiIgnore (l : List Char) : List Char := l.filter (fun c => c.toNat < 128)

/-- Leading-whitespace removal (one side of str.strip). -/
def trimLeft (l : List Char) : List Char := l.dropWhile isPySpace

/-- Trailing-whitespace removal (the other side of str.strip). -/
def trimRight (l : List Char) : List Char := (l.reverse.dropWhile isPySpace).reverse

/-- str.strip(): drop whitespace on both ends. -/
def pyStripChars (l : List Char) : List Char := trimRight (trimLeft l)

/-- USERNAME_MATCHER.match with the pattern anchored by a caret and a
dollar: Python match succeeds exactly when the whole string consists of
one or more allowed-username characters, or everything before a single
final newline does (the dollar anchor also matches just before a terminal
newline). -/
def usernameMatch (v : List Char) : Bool :=
  match v.getLast? with
  | none => false
  | some c =>
    if c = '\n' then !v.dropLast.isEmpty && v.dropLast.all isUserChar
    else !v.isEmpty && v.all isUserChar

/-- Worker of CLEANUP_MATCHER.sub: walk the string left to right; the
flag records whether we are inside a run of hyphen/whitespace characters
that has already emitted its single replacement hyphen. -/
def collapseRunsGo : Bool → List Char → List Char
  | _, [] => []
  | inRun, c :: rest =>
    if isDashSpace c then
      (if inRun then [] else ['-']) ++ collapseRunsGo true rest
    else c :: collapseRunsGo false rest

/-- CLEANUP_MATCHER.sub('-', value): every maximal run of hyphen and
whitespace characters is replaced by a single hyphen. -/
def collapseRuns (l : List Char) : List Char := collapseRunsGo false l

/-- slugify_username from pipeline.py.  The nfkd parameter stands for
unicodedata.normalize('NFKD', -); the rest is the literal algorithm:
drop non-ASCII, return unchanged when USERNAME_MATCHER matches, otherwise
remove the STRIP_MATCHER characters, strip, and collapse hyphen and
whitespace runs with CLEANUP_MATCHER. -/
def slugify_username (nfkd : List Char → List Char) (value : List Char) : List Char :=
  let v := asciiIgnore (nfkd value)
  if usernameMatch v then v
  else collapseRuns (pyStripChars (v.filter (fun c => !isStripTarget c)))

/-- Character kept by the removal step, phrased as the specification does:
everything outside the class of word, whitespace, dot, at-sign, plus and
hyphen characters is removed, so these are the kept characters. -/
def specKeep (c : Char) : Bool :=
  isWordAscii c || isPySpace c || c = '.' || c = '@' || c = '+' || c = '-'

/-- Collapse of hyphen and whitespace runs, phrased as the specification
does: each maximal run of such characters becomes a single hyphen. -/
def collapseRunsSpec (l : List Char) : List Char :=
  match l with
  | [] => []
  | c :: rest =>
    if isDashSpace c then '-' :: collapseRunsSpec (rest.dropWhile isDashSpace)
    else c :: collapseRunsSpec rest
termination_by l.length
decreasing_by
  all_goals simp only [List.length_cons]
  · exact Nat.lt_succ_of_le (List.dropWhile_sublist isDashSpace).length_le
  · exact Nat.lt_succ_self rest.length

/-- Modelled from the spec wording of 4.15: Unicode-normalize and drop the
non-ASCII remainder; if the result already matches the allowed pattern,
return it as-is; otherwise strip all characters outside the allowed class,
trim, then collapse runs of whitespace and hyphen into a single hyphen. -/
def slugify_username_spec (nfkd : List Char → List Char) (value : List Char) : List Char :=
  let v := (nfkd value).filter (fun c => c.toNat < 128)
  if usernameMatch v then v
  else collapseRunsSpec (pyStripChars (v.filter specKeep))

theorem collapseRunsGo_eq (l : List Char) :
    collapseRunsGo false l = collapseRunsSpec l ∧
    collapseRunsGo true l = collapseRunsSpec (l.dropWhile isDashSpace) := by
  induction l with
  | nil => simp [collapseRunsGo, collapseRunsSpec]
  | cons c rest ih =>
    by_cases h : isDashSpace c = true
    · constructor
      · rw [collapseRunsGo, collapseRunsSpec, if_pos h, if_pos h]
        simpa using ih.2
      · rw [collapseRunsGo, List.dropWhile_cons_of_pos h, if_pos h]
        simpa using ih.2
    · constructor
      · rw [collapseRunsGo, collapseRunsSpec,
          if_neg (by simpa using h), if_neg (by simpa using h)]
        simpa using ih.1
      · rw [collapseRunsGo, List.dropWhile_cons_of_neg (by simpa using h),
          collapseRunsSpec, if_neg (by simpa using h), if_neg (by simpa using h)]
        simpa using ih.1

theorem mem_collapseRunsGo {c : Char} :
    ∀ (b : Bool) (l : List Char), c ∈ collapseRunsGo b l →
      c = '-' ∨ (c ∈ l ∧ isDashSpace c = false) := by
  intro b l
  induction l generalizing b with
  | nil => simp [collapseRunsGo]
  | cons d rest ih =>
    intro hmem
    rw [collapseRunsGo] at hmem
    by_cases h : isDashSpace d = true
    · rw [if_pos h] at hmem
      rcases List.mem_append.mp hmem with h1 | h2
      · cases b with
        | true => simp at h1
        | false =>
          left
          simpa using h1
      · rcases ih true h2 with h3 | h4
        · exact Or.inl h3
        · exact Or.inr ⟨List.mem_cons_of_mem d h4.1, h4.2⟩
    · rw [if_neg h] at hmem
      rcases List.mem_cons.mp hmem with h1 | h2
      · subst h1
        exact Or.inr ⟨List.mem_cons_self c rest, by simpa using h⟩
      · rcases ih false h2 with h3 | h4
        · exact Or.inl h3
        · exact Or.inr ⟨List.mem_cons_of_mem d h4.1, h4.2⟩

theorem mem_pyStripChars {c : Char} {l : List Char} (h : c ∈ pyStripChars l) : c ∈ l := by
  unfold pyStripChars trimRight trimLeft at h
  rw [List.mem_reverse] at h
  have h1 := (List.dropWhile_sublist isPySpace).mem h
  rw [List.mem_reverse] at h1
  exact (List.dropWhile_sublist isPySpace).mem h1

theorem isUserChar_lt_128 {c : Char} (h : isUserChar c = true) : c.toNat < 128 := by
  unfold isUserChar isWordAscii at h
  simp only [Bool.or_eq_true, decide_eq_true_eq, Bool.and_eq_true] at h
  rcases h with ((((((ha | hb) | hc) | hd) | h1) | h2) | h3) | h4
  · omega
  · omega
  · omega
  · omega
  · subst h1; decide
  · subst h2; decide
  · subst h3; decide
  · subst h4; decide

theorem mem_slugified_isUserChar {c : Char} {v : List Char}
    (h : c ∈ collapseRuns (pyStripChars (v.filter (fun c => !isStripTarget c)))) :
    isUserChar c = true := by
  rcases mem_collapseRunsGo false _ h with h1 | ⟨h2, h3⟩
  · subst h1; decide
  · have h4 := mem_pyStripChars h2
    rw [List.mem_filter] at h4
    have h5 := h4.2
    unfold isStripTarget at h5
    unfold isDashSpace at h3
    unfold isUserChar
    simp only [Bool.not_not, Bool.or_eq_true, Bool.or_eq_false_iff, decide_eq_true_eq,
      decide_eq_false_iff_not, Bool.eq_false_iff, ne_eq] at h5 h3 ⊢
    tauto

theorem usernameMatch_of_userChars {v : List Char} (hne : v ≠ [])
    (hall : ∀ c ∈ v, isUserChar c = true) : usernameMatch v = true := by
  unfold usernameMatch
  rcases hlast : v.getLast? with _ | c
  · exact absurd (List.getLast?_eq_none_iff.mp hlast) hne
  · have hc := hall c (List.mem_of_getLast?_eq_some hlast)
    have hnl : c ≠ '\n' := by
      intro h
      rw [h] at hc
      exact absurd hc (by decide)
    dsimp only
    rw [if_neg hnl]
    simp only [Bool.and_eq_true, Bool.not_eq_true', List.all_eq_true]
    exact ⟨by simpa using hne, fun c hc => hall c hc⟩

theorem asciiIgnore_fix {l : List Char} (h : ∀ c ∈ l, c.toNat < 128) :
    asciiIgnore l = l :=
  List.filter_eq_self.mpr (fun c hc => by simpa using h c hc)

theorem mem_asciiIgnore_lt {c : Char} {l : List Char} (h : c ∈ asciiIgnore l) :
    c.toNat < 128 := by
  unfold asciiIgnore at h
  rw [List.mem_filter] at h
  simpa using h.2

theorem collapseRuns_eq_spec (l : List Char) : collapseRuns l = collapseRunsSpec l :=
  (collapseRunsGo_eq l).1

/-- C1: for every input string, slugify_username is a total deterministic
function (it is a Lean function) and is idempotent on its own output,
for any NFKD normalization that fixes ASCII-only strings (the Unicode
guarantee about the real unicodedata.normalize). -/
theorem slugify_username_idempotent (nfkd : List Char → List Char)
    (hnfkd : ∀ l : List Char, (∀ c ∈ l, c.toNat < 128) → nfkd l = l)
    (x : List Char) :
    slugify_username nfkd (slugify_username nfkd x) = slugify_username nfkd x := by
  simp only [slugify_username]
  by_cases hm : usernameMatch (asciiIgnore (nfkd x)) = true
  · rw [if_pos hm]
    have hascii : ∀ c ∈ asciiIgnore (nfkd x), c.toNat < 128 :=
      fun c hc => mem_asciiIgnore_lt hc
    rw [hnfkd _ hascii, asciiIgnore_fix hascii, if_pos hm]
  · rw [if_neg hm]
    have hall : ∀ c ∈ collapseRuns (pyStripChars
        ((asciiIgnore (nfkd x)).filter (fun c => !isStripTarget c))),
        isUserChar c = true :=
      fun c hc => mem_slugified_isUserChar hc
    have hascii : ∀ c ∈ collapseRuns (pyStripChars
        ((asciiIgnore (nfkd x)).filter (fun c => !isStripTarget c))),
        c.toNat < 128 :=
      fun c hc => isUserChar_lt_128 (hall c hc)
    rw [hnfkd _ hascii, asciiIgnore_fix hascii]
    by_cases hne : collapseRuns (pyStripChars
        ((asciiIgnore (nfkd x)).filter (fun c => !isStripTarget c))) = []
    · rw [hne]
      rw [if_neg (by decide : ¬ usernameMatch [] = true)]
      rfl
    · rw [if_pos (usernameMatch_of_userChars hne hall)]

/-- C1 witness: idempotence at a concrete input, instantiating the NFKD
parameter with the identity function (which fixes ASCII-only strings). -/
theorem slugify_username_idempotent_witness :
    slugify_username id (slugify_username id ("Jose  Nandu!").data) =
      slugify_username id ("Jose  Nandu!").data :=
  slugify_username_idempotent id (fun _ _ => rfl) ("Jose  Nandu!").data

/-- C2: the algorithm the specification describes for slugify_username
(normalize and drop non-ASCII; return as-is on a full pattern match;
otherwise remove the characters outside the allowed class, trim, and
collapse whitespace and hyphen runs into single hyphens) computes exactly
the source function, for every NFKD function and every input. -/
theorem slugify_username_spec_refines (nfkd : List Char → List Char)
    (value : List Char) :
    slugify_username_spec nfkd value = slugify_username nfkd value := by
  simp only [slugify_username_spec, slugify_username, asciiIgnore]
  have hfilter : ∀ l : List Char,
      l.filter specKeep = l.filter (fun c => !isStripTarget c) := by
    intro l
    refine List.filter_congr (fun c _ => ?_)
    simp [specKeep, isStripTarget]
  by_cases hm : usernameMatch ((nfkd value).filter (fun c => c.toNat < 128)) = true
  · rw [if_pos hm, if_pos hm]
  · rw [if_neg hm, if_neg hm, hfilter, collapseRuns_eq_spec]

/-- Classified failures a pipeline step can raise.  The first three mirror
the exceptions used in pipeline.py (AuthStateForbidden carries its tag
string, AuthMissingParameter the missing field); the last three model
Python-level failures of unguarded operations. -/
inductive PipelineError where
  | authStateForbidden (tag : String)
  | authAlreadyAssociated
  | authMissingParameter (field : String)
  | keyError (key : String)
  | indexError
  | multipleObjectsReturned
deriving DecidableEq

/-- A Django user reference: primary key plus the is_authenticated flag the
code consults. -/
structure AuthUser where
  pk : Nat
  is_authenticated : Bool
deriving DecidableEq

/-- The current user id as ensure_valid computes it: the primary key when a
user is bound and authenticated, none otherwise. -/
def currentUserId (user : Option AuthUser) : Option Nat :=
  match user with
  | some u => if u.is_authenticated then some u.pk else none
  | none => none

/-- ensure_valid from pipeline.py: reject when the stored expiry is before
the current time; let password resets through; otherwise require the
current user id to equal the one captured at flow start. -/
def ensure_valid (user : Option AuthUser) (registering_user : Option Nat)
    (weblate_action : String) (weblate_expires : Int) (now : Int) :
    Except PipelineError Unit :=
  if weblate_expires < now then .error (.authStateForbidden "expires")
  else if weblate_action = "reset" then .ok ()
  else if currentUserId user = registering_user then .ok ()
  else .error (.authStateForbidden "user")

/-- C3: when the stored expiry timestamp is in the past, ensure_valid fails
with the link-expired error (AuthStateForbidden tagged "expires"),
whatever the user, the recorded registering user, or the action — in
particular even for a password-reset flow, because the expiry check comes
first. -/
theorem ensure_valid_expired (user : Option AuthUser) (registering_user : Option Nat)
    (weblate_action : String) (weblate_expires now : Int)
    (h : weblate_expires < now) :
    ensure_valid user registering_user weblate_action weblate_expires now =
      .error (.authStateForbidden "expires") := by
  unfold ensure_valid
  rw [if_pos h]

/-- C3 witness: an expired reset attempt by the matching user still fails. -/
theorem ensure_valid_expired_witness :
    ensure_valid (some ⟨7, true⟩) (some 7) "reset" 10 11 =
      .error (.authStateForbidden "expires") :=
  ensure_valid_expired (some ⟨7, true⟩) (some 7) "reset" 10 11 (by decide)

/-- C4: with an unexpired timestamp, a reset flow passes without any user
comparison, and any other flow passes exactly when the current user id
(primary key when bound and authenticated, none otherwise) equals the
recorded registering user; a mismatch fails with AuthStateForbidden
tagged "user". -/
theorem ensure_valid_unexpired (user : Option AuthUser) (registering_user : Option Nat)
    (weblate_action : String) (weblate_expires now : Int)
    (h : ¬ weblate_expires < now) :
    (weblate_action = "reset" →
      ensure_valid user registering_user weblate_action weblate_expires now = .ok ()) ∧
    (weblate_action ≠ "reset" →
      (ensure_valid user registering_user weblate_action weblate_expires now = .ok () ↔
        currentUserId user = registering_user) ∧
      (currentUserId user ≠ registering_user →
        ensure_valid user registering_user weblate_action weblate_expires now =
          .error (.authStateForbidden "user"))) := by
  unfold ensure_valid
  rw [if_neg h]
  constructor
  · intro hr
    rw [if_pos hr]
  · intro hr
    rw [if_neg hr]
    constructor
    · by_cases hu : currentUserId user = registering_user
      · rw [if_pos hu]
        simp [hu]
      · rw [if_neg hu]
        simp [hu]
    · intro hu
      rw [if_neg hu]

/-- C4 witness: unexpired, non-reset, mismatched user fails with the user
tag; the same instantiation also shows the ok-iff direction. -/
theorem ensure_valid_unexpired_witness :
    ensure_valid (some ⟨3, true⟩) (some 4) "activation" 11 10 =
      .error (.authStateForbidden "user") :=
  ((ensure_valid_unexpired (some ⟨3, true⟩) (some 4) "activation" 11 10
    (by decide)).2 (by decide)).2 (by decide)

/-- One element of the sequence returned by the provider's secondary email
endpoint: email string plus the verified and primary flags. -/
structure EmailEntry where
  email : String
  verified : Bool
  primary : Bool
deriving DecidableEq

/-- The loop of get_github_email: walk the entries in order, skip the
unverified ones, remember the latest verified email, and stop at the first
verified primary entry. -/
def githubEmailLoop : List EmailEntry → Option String → Option String
  | [], acc => acc
  | e :: rest, acc =>
    if !e.verified then githubEmailLoop rest acc
    else if e.primary then some e.email
    else githubEmailLoop rest (some e.email)

/-- get_github_email from pipeline.py, over the decoded entry list (the
network fetch itself is outside the embedded logic). -/
def get_github_email (data : List EmailEntry) : Option String :=
  githubEmailLoop data none

/-- The github branch of require_email: details.email after the step, given
the endpoint data and the previous value — it is overwritten exactly when
get_github_email found an email. -/
def require_email_github_details (data : List EmailEntry)
    (details_email : Option String) : Option String :=
  match get_github_email data with
  | some e => some e
  | none => details_email

/-- Modelled from the spec words of C5: the primary verified entry's email
when one exists, otherwise the FIRST verified entry's email. -/
def claimedGithubPick (data : List EmailEntry) : Option String :=
  match data.find? (fun e => e.verified && e.primary) with
  | some e => some e.email
  | none => (data.find? (fun e => e.verified)).map (fun e => e.email)

/-- What the code actually selects: the first verified primary entry's
email when one exists, otherwise the LAST verified entry's email. -/
def amendedGithubPick (data : List EmailEntry) : Option String :=
  match data.find? (fun e => e.verified && e.primary) with
  | some e => some e.email
  | none =>
    match (data.filter (fun e => e.verified)).getLast? with
    | some e => some e.email
    | none => none

/-- C5 counterexample: with two verified non-primary entries the code
selects the second (last) one, not the first as the claim states. -/
theorem get_github_email_not_first_verified :
    get_github_email [⟨"first@x", true, false⟩, ⟨"last@x", true, false⟩] =
        some "last@x" ∧
      claimedGithubPick [⟨"first@x", true, false⟩, ⟨"last@x", true, false⟩] =
        some "first@x" ∧
      get_github_email [⟨"first@x", true, false⟩, ⟨"last@x", true, false⟩] ≠
        claimedGithubPick [⟨"first@x", true, false⟩, ⟨"last@x", true, false⟩] := by
  refine ⟨rfl, rfl, ?_⟩
  decide

theorem githubEmailLoop_eq (data : List EmailEntry) :
    ∀ acc : Option String, githubEmailLoop data acc =
      match data.find? (fun e => e.verified && e.primary) with
      | some e => some e.email
      | none =>
        match (data.filter (fun e => e.verified)).getLast? with
        | some e => some e.email
        | none => acc := by
  induction data with
  | nil => intro acc; rfl
  | cons e rest ih =>
    intro acc
    by_cases hv : e.verified = true
    · by_cases hp : e.primary = true
      · rw [githubEmailLoop, if_neg (by simp [hv]), if_pos hp,
          List.find?_cons_of_pos _ (by simp [hv, hp])]
      · rw [githubEmailLoop, if_neg (by simp [hv]), if_neg hp, ih,
          List.find?_cons_of_neg _ (by simp [hp]),
          List.filter_cons_of_pos hv]
        rcases hfind : rest.find? (fun e => e.verified && e.primary) with _ | f
        · simp only [hfind]
          rcases hfl : rest.filter (fun e => e.verified) with _ | ⟨a, t⟩
          · simp only [hfl]
            rfl
          · simp only [hfl, List.getLast?_cons_cons]
            rcases hg : (a :: t).getLast? with _ | g
            · exact absurd (List.getLast?_eq_none_iff.mp hg) (by simp)
            · simp only [hg]
        · simp only [hfind]
    · rw [githubEmailLoop, if_pos (by simp [hv]), ih,
        List.find?_cons_of_neg _ (by simp [hv]),
        List.filter_cons_of_neg (by simp [hv])]

/-- C5 amended: the selected email is the first verified primary entry's
email when one exists, otherwise the LAST verified entry's email (not the
first); require_email then stores that value in details.email exactly when
one was found, keeping the previous value otherwise. -/
theorem get_github_email_amended (data : List EmailEntry)
    (details_email : Option String) :
    get_github_email data = amendedGithubPick data ∧
      require_email_github_details data details_email =
        (match amendedGithubPick data with
          | some e => some e
          | none => details_email) := by
  have h : get_github_email data = amendedGithubPick data := by
    unfold get_github_email amendedGithubPick
    rw [githubEmailLoop_eq]
  refine ⟨h, ?_⟩
  unfold require_email_github_details
  rw [h]

/-- verify_username from pipeline.py: nothing to do when a user is already
bound or the details carry no username; otherwise fail when some existing
account name matches case-insensitively (username__iexact, modelled by
comparing lowercased names). -/
def verify_username (user : Option Nat) (details_username : Option String)
    (existing : List String) : Except PipelineError Unit :=
  if user.isSome then .ok ()
  else
    match details_username with
    | none => .ok ()
    | some uname =>
      if existing.any (fun u => u.toLower = uname.toLower) then
        .error .authAlreadyAssociated
      else .ok ()

/-- C6: verify_username fails with AuthAlreadyAssociated exactly when no
user is bound, a username was supplied, and some existing account name
matches it case-insensitively; in every other situation it returns
normally (it is a no-op: the model changes no state). -/
theorem verify_username_characterization (user : Option Nat) (du : Option String)
    (existing : List String) :
    (verify_username user du existing = .error .authAlreadyAssociated ↔
      user = none ∧ ∃ uname, du = some uname ∧
        ∃ u ∈ existing, u.toLower = uname.toLower) ∧
    (verify_username user du existing = .ok () ∨
      verify_username user du existing = .error .authAlreadyAssociated) := by
  rcases user with _ | p
  · rcases du with _ | uname
    · refine ⟨?_, Or.inl rfl⟩
      simp [verify_username]
    · by_cases h : existing.any (fun u => u.toLower = uname.toLower) = true
      · have hres : verify_username none (some uname) existing =
            .error .authAlreadyAssociated := by
          simp [verify_username, h]
        refine ⟨?_, Or.inr hres⟩
        rw [hres]
        constructor
        · intro _
          refine ⟨rfl, uname, rfl, ?_⟩
          obtain ⟨u, hmem, hu⟩ := List.any_eq_true.mp h
          exact ⟨u, hmem, by simpa using hu⟩
        · intro _
          rfl
      · have hres : verify_username none (some uname) existing = .ok () := by
          simp [verify_username, h]
        refine ⟨?_, Or.inl hres⟩
        rw [hres]
        constructor
        · intro hcontra
          exact absurd hcontra (by simp)
        · rintro ⟨-, uname2, hu2, u, hmem, heq⟩
          injection hu2 with h2
          subst h2
          exact absurd (List.any_eq_true.mpr ⟨u, hmem, by simpa using heq⟩) h
  · refine ⟨?_, Or.inl (by simp [verify_username])⟩
    simp [verify_username]

/-- The email currently stored for a social identity in the VerifiedEmail
table (rows are social-key/email pairs). -/
def lookupVE (social : Nat) (rows : List (Nat × String)) : Option String :=
  (rows.find? (fun r => r.1 = social)).map (fun r => r.2)

/-- VerifiedEmail.objects.get_or_create(social=social): the fetched row's
email together with the resulting table; a fresh row carries the empty
string, the blank CharField default of the model. -/
def getOrCreateVE (social : Nat) (rows : List (Nat × String)) :
    String × List (Nat × String) :=
  match rows.find? (fun r => r.1 = social) with
  | some r => (r.2, rows)
  | none => ("", rows ++ [(social, "")])

/-- verified.save() after assigning the email: rewrite the row keyed by
this social identity. -/
def saveVE (social : Nat) (email : String) (rows : List (Nat × String)) :
    List (Nat × String) :=
  rows.map (fun r => if r.1 = social then (r.1, email) else r)

/-- store_email from pipeline.py: missing or none email in details is
rejected; otherwise get-or-create the VerifiedEmail row for the social
identity and save a changed email only when it differs.  The Bool reports
whether a save happened. -/
def store_email (details_email : Option (Option String)) (social : Nat)
    (rows : List (Nat × String)) :
    Except PipelineError (List (Nat × String) × Bool) :=
  match details_email with
  | none => .error (.authMissingParameter "email")
  | some none => .error (.authMissingParameter "email")
  | some (some e) =>
    let vc := getOrCreateVE social rows
    if vc.1 ≠ e then .ok (saveVE social e vc.2, true)
    else .ok (vc.2, false)

theorem filter_key_saveVE (social : Nat) (e : String) (rows : List (Nat × String)) :
    (saveVE social e rows).filter (fun r => r.1 = social) =
      (rows.filter (fun r => r.1 = social)).map (fun r => (r.1, e)) := by
  induction rows with
  | nil => rfl
  | cons r t ih =>
    by_cases h : r.1 = social
    · simp only [saveVE, List.map_cons, if_pos h, List.filter_cons]
      rw [if_pos (by simpa using h), if_pos (by simpa using h)]
      simpa [saveVE] using ih
    · simp only [saveVE, List.map_cons, if_neg h, List.filter_cons]
      rw [if_neg (by simpa using h), if_neg (by simpa using h)]
      simpa [saveVE] using ih

theorem lookup_saveVE (social : Nat) (e : String) (rows : List (Nat × String)) :
    lookupVE social (saveVE social e rows) =
      (lookupVE social rows).map (fun _ => e) := by
  induction rows with
  | nil => rfl
  | cons r t ih =>
    by_cases h : r.1 = social
    · simp only [saveVE, lookupVE, List.map_cons, if_pos h]
      rw [List.find?_cons_of_pos _ (by simpa using h),
        List.find?_cons_of_pos _ (by simpa using h)]
      rfl
    · simp only [saveVE, lookupVE, List.map_cons, if_neg h]
      rw [List.find?_cons_of_neg _ (by simpa using h),
        List.find?_cons_of_neg _ (by simpa using h)]
      simpa [saveVE, lookupVE] using ih

theorem filter_key_length_one {social : Nat} {rows : List (Nat × String)}
    (hnd : (rows.map Prod.fst).Nodup) {r : Nat × String}
    (hfind : rows.find? (fun r => r.1 = social) = some r) :
    (rows.filter (fun r => r.1 = social)).length = 1 := by
  induction rows with
  | nil => exact absurd hfind (by simp)
  | cons a t ih =>
    rw [List.map_cons, List.nodup_cons] at hnd
    by_cases h : a.1 = social
    · rw [List.filter_cons_of_pos (by simpa using h), List.length_cons]
      have hnone : t.filter (fun r => r.1 = social) = [] := by
        rw [List.filter_eq_nil_iff]
        intro x hx
        simp only [decide_eq_true_eq]
        intro hxk
        apply hnd.1
        have hx2 : x.1 ∈ List.map Prod.fst t := List.mem_map.mpr ⟨x, hx, rfl⟩
        rwa [hxk, ← h] at hx2
      rw [hnone]
      rfl
    · rw [List.filter_cons_of_neg (by simpa using h)]
      rw [List.find?_cons_of_neg _ (by simpa using h)] at hfind
      exact ih hnd.2 hfind

/-- C7: store_email fails with the missing-email error exactly when the
details carry no email (key absent or value none); otherwise the resulting
table holds exactly one VerifiedEmail row for the social identity, that
row stores the supplied email, and a save happened exactly when the
supplied email differed from the value the fetched (or freshly created)
row carried. -/
theorem store_email_spec (de : Option (Option String)) (social : Nat)
    (rows : List (Nat × String)) (hnd : (rows.map Prod.fst).Nodup) :
    (store_email de social rows = .error (.authMissingParameter "email") ↔
      de = none ∨ de = some none) ∧
    (∀ e rows2 saved, de = some (some e) →
      store_email de social rows = .ok (rows2, saved) →
      (rows2.filter (fun r => r.1 = social)).length = 1 ∧
      lookupVE social rows2 = some e ∧
      saved = decide ((getOrCreateVE social rows).1 ≠ e)) := by
  constructor
  · rcases de with _ | de2
    · simp [store_email]
    · rcases de2 with _ | e
      · simp [store_email]
      · simp only [store_email]
        constructor
        · intro hres
          by_cases h : (getOrCreateVE social rows).1 ≠ e
          · rw [if_pos h] at hres
            exact absurd hres (by simp)
          · rw [if_neg h] at hres
            exact absurd hres (by simp)
        · intro hcontra
          rcases hcontra with h | h <;> exact absurd h (by simp)
  · intro e rows2 saved hde hres
    subst hde
    simp only [store_email] at hres
    rcases hf : rows.find? (fun r => r.1 = social) with _ | r
    · have hvc : getOrCreateVE social rows = ("", rows ++ [(social, "")]) := by
        unfold getOrCreateVE
        rw [hf]
      rw [hvc] at hres ⊢
      have hfilter_rows : rows.filter (fun r => r.1 = social) = [] := by
        rw [List.filter_eq_nil_iff]
        intro x hx
        exact List.find?_eq_none.mp hf x hx
      by_cases h : ("" : String) ≠ e
      · rw [if_pos (by simpa using h)] at hres
        injection hres with hres2
        injection hres2 with hr hs
        subst hr
        subst hs
        refine ⟨?_, ?_, by simp [h]⟩
        · rw [filter_key_saveVE, List.filter_append, hfilter_rows]
          simp
        · rw [lookup_saveVE]
          unfold lookupVE
          rw [List.find?_append, List.find?_eq_none.mpr
            (fun x hx => List.find?_eq_none.mp hf x hx)]
          simp
      · rw [if_neg (by simpa using h)] at hres
        injection hres with hres2
        injection hres2 with hr hs
        subst hr
        subst hs
        have he : e = "" := by
          by_contra hne
          exact h (fun hh => hne hh.symm)
        subst he
        refine ⟨?_, ?_, by simp⟩
        · rw [List.filter_append, hfilter_rows]
          simp
        · unfold lookupVE
          rw [List.find?_append, List.find?_eq_none.mpr
            (fun x hx => List.find?_eq_none.mp hf x hx)]
          simp
    · have hvc : getOrCreateVE social rows = (r.2, rows) := by
        unfold getOrCreateVE
        rw [hf]
      rw [hvc] at hres ⊢
      by_cases h : r.2 ≠ e
      · rw [if_pos (by simpa using h)] at hres
        injection hres with hres2
        injection hres2 with hr hs
        subst hr
        subst hs
        refine ⟨?_, ?_, by simp [h]⟩
        · rw [filter_key_saveVE]
          rw [List.length_map]
          exact filter_key_length_one hnd hf
        · rw [lookup_saveVE]
          unfold lookupVE
          rw [hf]
          rfl
      · rw [if_neg (by simpa using h)] at hres
        injection hres with hres2
        injection hres2 with hr hs
        subst hr
        subst hs
        have he : r.2 = e := by
          by_contra hne
          exact h hne
        refine ⟨filter_key_length_one hnd hf, ?_, by simp [he]⟩
        unfold lookupVE
        rw [hf]
        simp [he]

/-- C7 witness: storing a first email for a fresh social identity creates
the row, stores the email, and counts as a save. -/
theorem store_email_spec_witness :
    ([((1 : Nat), "user@x")].filter (fun r => r.1 = 1)).length = 1 ∧
      lookupVE 1 [(1, "user@x")] = some "user@x" ∧
      true = decide ((getOrCreateVE 1 ([] : List (Nat × String))).1 ≠ "user@x") :=
  (store_email_spec (some (some "user@x")) 1 [] (by simp)).2
    "user@x" [(1, "user@x")] true rfl rfl

/-- Name-related provider details read by user_full_name: a field is none
when the provider did not supply that key. -/
structure NameDetails where
  fullname : Option String
  first_name : Option String
  last_name : Option String
deriving DecidableEq

/-- str.strip() on a whole string. -/
def pyStrip (s : String) : String := ⟨pyStripChars s.data⟩

/-- The Python substring containment operator on strings: the first
string's characters occur contiguously inside the second string's. -/
def pyIn (a b : String) : Bool := decide (a.data <:+: b.data)

/-- The first/last combination rule of user_full_name: first plus a space
plus last when the first name is non-empty and not a substring of the last
name, the first name alone when non-empty but contained in the last name,
and the last name alone when the first name is empty (missing keys read as
the empty string). -/
def combineNames (d : NameDetails) : String :=
  if d.first_name.getD "" ≠ "" ∧
      pyIn (d.first_name.getD "") (d.last_name.getD "") = false then
    d.first_name.getD "" ++ " " ++ d.last_name.getD ""
  else if d.first_name.getD "" ≠ "" then d.first_name.getD ""
  else d.last_name.getD ""

/-- The 30-character Django User field limit applied by user_full_name. -/
def truncate30 (s : String) : String :=
  if s.length > 30 then ⟨s.data.take 30⟩ else s

/-- The full name user_full_name derives: the stripped fullname detail; if
that is empty and a first or last name key is present, the first/last
combination; the result is stripped again and truncated to 30 characters. -/
def derive_full_name (d : NameDetails) : String :=
  truncate30 (pyStrip (
    if pyStrip (d.fullname.getD "") = "" ∧
        (d.first_name.isSome ∨ d.last_name.isSome)
    then combineNames d
    else pyStrip (d.fullname.getD "")))

/-- user_full_name from pipeline.py for a bound user: the stored
first-name field afterwards and whether the record was marked changed. -/
def user_full_name (d : NameDetails) (stored_first_name : String) :
    String × Bool :=
  if derive_full_name d ≠ "" ∧ derive_full_name d ≠ stored_first_name
  then (derive_full_name d, true) else (stored_first_name, false)

/-- Modelled from the words of claim C8: the trimmed explicit fullname
when non-empty, else the first/last combination, truncated to 30
characters — with no trim of the combination before truncating. -/
def claimed_full_name (d : NameDetails) : String :=
  ⟨(if pyStrip (d.fullname.getD "") ≠ "" then pyStrip (d.fullname.getD "")
    else combineNames d).data.take 30⟩

/-- The derived name as the code computes it: like the claim, but the
derived value is trimmed of surrounding whitespace before the
30-character truncation. -/
def amended_full_name (d : NameDetails) : String :=
  truncate30 (pyStrip (
    if pyStrip (d.fullname.getD "") ≠ "" then pyStrip (d.fullname.getD "")
    else combineNames d))

/-- C8 counterexample: with only a last name of " Bob " supplied, the
claim derives " Bob " (no trim in the first/last path) while the code
derives "Bob" and stores that; the claim is false at this input. -/
theorem user_full_name_counterexample :
    claimed_full_name ⟨none, none, some " Bob "⟩ = " Bob " ∧
      user_full_name ⟨none, none, some " Bob "⟩ "x" = ("Bob", true) ∧
      (" Bob " : String) ≠ "Bob" := by
  refine ⟨by decide, by decide, by decide⟩

/-- C8 amended: the derived full name is the trimmed fullname when
non-empty, else the first/last combination; the derived value is trimmed
of surrounding whitespace and then truncated to 30 characters; the stored
first-name is replaced (and the record marked changed) exactly when that
value is non-empty and differs from the stored one. -/
theorem user_full_name_amended (d : NameDetails) (stored : String) :
    derive_full_name d = amended_full_name d ∧
    user_full_name d stored =
      (if amended_full_name d ≠ "" ∧ amended_full_name d ≠ stored
       then (amended_full_name d, true) else (stored, false)) := by
  have h : derive_full_name d = amended_full_name d := by
    unfold derive_full_name amended_full_name
    by_cases hful : pyStrip (d.fullname.getD "") = ""
    · by_cases hkeys : d.first_name.isSome = true ∨ d.last_name.isSome = true
      · rw [if_pos ⟨hful, hkeys⟩, if_neg (by simpa using hful)]
      · rw [if_neg (fun hc => hkeys hc.2), if_neg (by simpa using hful)]
        have hfn : d.first_name = none := by
          rcases hf : d.first_name with _ | v
          · rfl
          · exact absurd (Or.inl (by rw [hf]; rfl)) hkeys
        have hln : d.last_name = none := by
          rcases hl : d.last_name with _ | v
          · rfl
          · exact absurd (Or.inr (by rw [hl]; rfl)) hkeys
        rw [hful]
        unfold combineNames
        rw [hfn, hln]
        rfl
    · rw [if_neg (fun hc => hful hc.1), if_pos (by simpa using hful)]
  refine ⟨h, ?_⟩
  unfold user_full_name
  rw [h]

/-- A stored verification code: code string, email, verified flag. -/
structure VCode where
  code : String
  email : String
  verified : Bool
deriving DecidableEq

/-- revoke_mail_code from pipeline.py.  details and request_data are
key/value mappings; the subscript access to the email detail comes first
and is unguarded, so a missing email key is a KeyError.  With an email
present, a verified code matching the verification_code request parameter
and that email is deleted; a missing row is swallowed (DoesNotExist), and
several matching rows are a MultipleObjectsReturned failure of the get
call. -/
def revoke_mail_code (details : List (String × String))
    (request_data : List (String × String)) (codes : List VCode) :
    Except PipelineError (List VCode) :=
  match details.find? (fun kv => kv.1 = "email") with
  | none => .error (.keyError "email")
  | some kvd =>
    if kvd.2 ≠ "" then
      match request_data.find? (fun kv => kv.1 = "verification_code") with
      | none => .ok codes
      | some kvr =>
        match codes.filter (fun c =>
            c.code = kvr.2 && c.email = kvd.2 && c.verified) with
        | [] => .ok codes
        | [c] => .ok (codes.erase c)
        | _ => .error .multipleObjectsReturned
    else .ok codes

/-- C9: revoke_mail_code dereferences the email detail before looking at
the verification_code request parameter, so whenever the details mapping
has no email key the step aborts with a KeyError — it is never a guarded
no-op there — and a KeyError can arise in no other way. -/
theorem revoke_mail_code_keyerror (details request_data : List (String × String))
    (codes : List VCode) :
    (details.find? (fun kv => kv.1 = "email") = none →
      revoke_mail_code details request_data codes = .error (.keyError "email")) ∧
    (∀ kvd, details.find? (fun kv => kv.1 = "email") = some kvd →
      revoke_mail_code details request_data codes ≠ .error (.keyError "email")) := by
  constructor
  · intro h
    unfold revoke_mail_code
    rw [h]
  · intro kvd h
    unfold revoke_mail_code
    rw [h]
    dsimp only
    by_cases he : kvd.2 ≠ ""
    · rw [if_pos he]
      rcases hfr : request_data.find? (fun kv => kv.1 = "verification_code")
        with _ | kvr
      · simp only [hfr]
        simp
      · simp only [hfr]
        rcases hfl : codes.filter (fun c =>
            c.code = kvr.2 && c.email = kvd.2 && c.verified) with _ | ⟨c, rest⟩
        · simp only [hfl]
          simp
        · rcases rest with _ | ⟨c2, rest2⟩
          · simp only [hfl]
            simp
          · simp only [hfl]
            simp
    · rw [if_neg he]
      simp

/-- C9 witness: empty details with a pending verification_code parameter
still abort with the KeyError rather than acting as a no-op. -/
theorem revoke_mail_code_keyerror_witness :
    revoke_mail_code [] [("verification_code", "1234")] [] =
      .error (.keyError "email") :=
  (revoke_mail_code_keyerror [] [("verification_code", "1234")] []).1 rfl

/-- One VerifiedEmail row as adjust_primary_mail queries it: the social
identity key, the owning user id, and the email. -/
structure VERow where
  social : Nat
  userId : Nat
  email : String
deriving DecidableEq

/-- A Django user record as adjust_primary_mail touches it. -/
structure DUser where
  id : Nat
  email : String
deriving DecidableEq

/-- The VerifiedEmail rows of this user that survive the disconnect: owned
by the user and not attached to one of the disconnected identities (the
filter/exclude queryset of adjust_primary_mail). -/
def survivingMails (rows : List VERow) (entries : List Nat) (user : DUser) :
    List VERow :=
  rows.filter (fun r => r.userId = user.id && !(entries.contains r.social))

/-- adjust_primary_mail from pipeline.py: return untouched when the
primary email is still backed by a surviving row; otherwise index the
first surviving row unconditionally and reassign the primary email, with
a warning (the Bool). -/
def adjust_primary_mail (rows : List VERow) (entries : List Nat) (user : DUser) :
    Except PipelineError (DUser × Bool) :=
  if (survivingMails rows entries user).any (fun r => r.email = user.email) then
    .ok (user, false)
  else
    match survivingMails rows entries user with
    | [] => .error .indexError
    | r :: _ => .ok ({ user with email := r.email }, true)

/-- C10: when no VerifiedEmail row survives the disconnect the step fails
with the out-of-range error instead of leaving the user unchanged; when
the primary email is still backed it returns the user entirely unchanged;
and with at least one surviving row it never fails. -/
theorem adjust_primary_mail_spec (rows : List VERow) (entries : List Nat)
    (user : DUser) :
    (survivingMails rows entries user = [] →
      adjust_primary_mail rows entries user = .error .indexError) ∧
    ((survivingMails rows entries user).any (fun r => r.email = user.email) = true →
      adjust_primary_mail rows entries user = .ok (user, false)) ∧
    (survivingMails rows entries user ≠ [] →
      ∀ e, adjust_primary_mail rows entries user ≠ .error e) := by
  refine ⟨?_, ?_, ?_⟩
  · intro h
    unfold adjust_primary_mail
    rw [h]
    simp
  · intro h
    unfold adjust_primary_mail
    rw [if_pos h]
  · intro hne e
    unfold adjust_primary_mail
    by_cases h : (survivingMails rows entries user).any
        (fun r => r.email = user.email) = true
    · rw [if_pos h]
      simp
    · rw [if_neg h]
      rcases hs : survivingMails rows entries user with _ | ⟨r, rest⟩
      · exact absurd hs hne
      · simp

/-- C10 witness: disconnecting with no surviving verified email fails with
the out-of-range lookup. -/
theorem adjust_primary_mail_spec_witness :
    adjust_primary_mail [] [] ⟨0, "a@x"⟩ = .error .indexError :=
  (adjust_primary_mail_spec [] [] ⟨0, "a@x"⟩).1 rfl

end Weblate
